import Mathlib

/-!
Shallow embedding of the NewsHound ingestion-and-retrieval pipeline
(`backend/services/channel_service.py`, `retrieval_service.py`,
`completion_service.py`, `summary_service.py` and the Catalog post ledger
`infrastructure/database/repositories/post_repository.py`).

Modelling conventions:
* Python `datetime` values are modelled by `Datetime`: a naive wall-clock
  timestamp in seconds (`wall : Int`) plus an optional `tzinfo` UTC offset
  (`tz : Option Int`).  `replace(tzinfo=None)` keeps `wall` and drops `tz`;
  comparison of naive datetimes compares `wall`.
* Relevance scores (Python floats in `[0,1]`) are modelled by `Rat`; the
  claims only use ordering and comparison of scores.
* The external vector index and the relational Catalog are modelled by
  explicit state (`IngestState`); the external search, LLM and
  channel-info calls are function parameters of the orchestrator
  definitions, mirroring the injected `IVectorStoreRepository`,
  `ILLMService` and `IChannelParser` interfaces.
* Wall-clock measurements (`processing_time`, `created_at`, `updated_at`)
  and the optional precomputed embedding vector (a float vector never read
  by the orchestrators) are not modelled.
-/

namespace NewsHound

/-- A Python `datetime`: naive wall-clock seconds plus optional tz offset. -/
structure Datetime where
  wall : Int
  tz : Option Int
deriving DecidableEq, Repr

/-- Absolute instant of a datetime (`wall` minus the UTC offset, if any);
Python compares two aware datetimes by absolute instant and two naive
datetimes by wall clock, so comparing homogeneous values by `key` matches
Python comparison in both cases. -/
def Datetime.key (d : Datetime) : Int :=
  d.wall - (d.tz.getD 0)

/-- `doc_date.replace(tzinfo=None) if doc_date.tzinfo else doc_date`
from `SummaryService._filter_by_period`. -/
def stripTz (d : Datetime) : Datetime :=
  match d.tz with
  | some _ => ⟨d.wall, none⟩
  | none => d

/-- Civil calendar date (year, month, day) from a day count relative to
1970-01-01; days-to-civil conversion used to model `strftime`.  Integer
division here truncates toward zero exactly as in the reference
algorithm. -/
def civilFromDays (z0 : Int) : Int × Int × Int :=
  let z := z0 + 719468
  let era := (if 0 ≤ z then z else z - 146096) / 146097
  let doe := z - era * 146097
  let yoe := (doe - doe / 1460 + doe / 36524 - doe / 146096) / 365
  let y := yoe + era * 400
  let doy := doe - (365 * yoe + yoe / 4 - yoe / 100)
  let mp := (5 * doy + 2) / 153
  let d := doy - (153 * mp + 2) / 5 + 1
  let m := mp + (if mp < 10 then 3 else -9)
  (y + (if m ≤ 2 then 1 else 0), m, d)

/-- Zero-padded two-digit rendering of a calendar component. -/
def pad2 (n : Int) : String :=
  if n < 10 then "0" ++ toString n else toString n

/-- Python `dt.strftime("%d.%m.%Y")` on our epoch-seconds model. -/
def strftimeDMY (d : Datetime) : String :=
  let c := civilFromDays (Int.ediv d.wall 86400)
  pad2 c.2.2 ++ "." ++ pad2 c.2.1 ++ "." ++ toString c.1

/-- `backend/domain/document.py` `DocumentMetadata` (the `source` field and
`extra = "allow"` fields are irrelevant to the orchestrators and omitted;
`channel` defaults to the empty string as in the Pydantic model). -/
structure DocumentMetadata where
  channel : String
  channel_id : Option Int
  message_id : Option Int
  date : Option Datetime
  url : Option String
  views : Option Int
deriving DecidableEq, Repr

/-- `backend/domain/document.py` `Document` (embedding vector omitted). -/
structure Document where
  id : Option String
  content : String
  metadata : DocumentMetadata
deriving DecidableEq, Repr

/-- `backend/domain/document.py` `SearchResult`. -/
structure SearchResult where
  document : Document
  score : Rat
deriving DecidableEq, Repr

/-- `backend/domain/channel.py` `ChannelStatus`. -/
inductive ChannelStatus where
  | active
  | paused
  | indexing
  | error
deriving DecidableEq, Repr

/-- `backend/domain/channel.py` `Channel`.  The DB id is modelled as a plain
`Int`: every code path handled here works with a Catalog-persisted record
whose id is set.  `created_at`/`updated_at` are wall-clock bookkeeping and
omitted. -/
structure Channel where
  id : Int
  telegram_id : Option Int
  username : String
  title : Option String
  description : Option String
  link : String
  status : ChannelStatus
  posts_count : Nat
  last_post_date : Option Datetime
deriving DecidableEq, Repr

/-- Channel metadata returned by `IChannelParser.get_channel_info`. -/
structure ChannelInfo where
  telegram_id : Option Int
  username : String
  title : Option String
  description : Option String
  link : String
deriving DecidableEq, Repr

/-- External state owned by the collaborators of `ChannelService`:
the vector index contents and the Catalog post ledger (`posts` rows as
(channel_id, message_id) pairs; only those two columns are ever read back
by the core, via `AsyncPostRepository.exists`). -/
structure IngestState where
  vectorstore : List Document
  ledger : List (Int × Int)
deriving DecidableEq, Repr

/-- `AsyncPostRepository.exists(channel_id, message_id)`: a ledger row with
both keys matching exists. -/
def ledgerExists (ledger : List (Int × Int)) (channelId messageId : Int) : Bool :=
  ledger.any (fun p => p.1 = channelId && p.2 = messageId)

/-- The skip test of `_index_channel_posts`: Python first tests
`if doc.metadata.message_id:` (falsy for `None` and for `0`), and only then
consults `exists`. -/
def shouldSkip (ledger : List (Int × Int)) (channelId : Int) (d : Document) : Bool :=
  match d.metadata.message_id with
  | some m => decide (m ≠ 0) && ledgerExists ledger channelId m
  | none => false

/-- The running-maximum update for `last_post_date` inside the streaming
loop: `if doc.metadata.date:` then update when strictly greater. -/
def updLast (last : Option Datetime) (docDate : Option Datetime) : Option Datetime :=
  match docDate with
  | none => last
  | some t =>
    match last with
    | none => some t
    | some w => if w.key < t.key then some t else some w

/-- The streaming loop of `ChannelService._index_channel_posts`
(lines 126-142): consume the source stream in order, skip documents whose
(channel, message-id) pair is already in the ledger, buffer the rest and
track the maximum publish timestamp among buffered documents. -/
def indexLoop (ledger : List (Int × Int)) (channelId : Int) :
    List Document → List Document → Option Datetime → List Document × Option Datetime
  | [], buf, last => (buf, last)
  | d :: rest, buf, last =>
    if shouldSkip ledger channelId d then
      indexLoop ledger channelId rest buf last
    else
      indexLoop ledger channelId rest (buf ++ [d]) (updLast last d.metadata.date)

/-- The failure a pass can raise past the vector-store write: the Catalog
commit of `bulk_create` violating the unique index (sqlalchemy
IntegrityError), re-raised to the caller. -/
inductive PassError where
  | integrityError
deriving DecidableEq, Repr

deriving instance DecidableEq for Except

/-- Lines 148-150 of `channel_service.py`: `if last_post_date:` (a
datetime is always truthy) assign the buffered maximum to the channel
watermark; otherwise leave the channel unchanged. -/
def applyWatermark (ch : Channel) (last : Option Datetime) : Channel :=
  match last with
  | some t => { ch with last_post_date := some t }
  | none => ch

/-- The (channel_id, message_id) rows a `bulk_create` batch inserts into
the `posts` table (`AsyncPostRepository._to_model` stores
`document.metadata.message_id or 0`). -/
def passRows (ch : Channel) (buffered : List Document) : List (Int × Int) :=
  buffered.map (fun d => (ch.id, d.metadata.message_id.getD 0))

/-- The commit of `AsyncPostRepository.bulk_create` under the UNIQUE index
`idx_post_channel_message` on posts(channel_id, message_id)
(`infrastructure/database/models.py`, `__table_args__`, and migration
`20250109_0001_initial_tables.py`, `op.create_index(..., unique=True)`):
the batch commits only when no inserted pair duplicates an existing
ledger row or another row of the same batch; otherwise the commit raises
IntegrityError and no row of the batch is recorded. -/
def bulkCreateOk (ledger rows : List (Int × Int)) : Bool :=
  decide rows.Nodup && rows.all (fun p => decide (p ∉ ledger))

/-- `ChannelService._index_channel_posts` (the shared indexing pass).
The stream is the finite document sequence yielded by
`parse_channel_posts_stream` (its `limit`/`offset_date` arguments only
shape that sequence and are absorbed into it).  Decompose by the source
lines: if nothing was buffered, no write happens and the watermark line
runs vacuously; otherwise `aadd_documents` writes the vector index FIRST
(modelled as append — exact for batches of fresh ids, and a document
whose `id` is `None` gets a fresh uuid point on every call), then
`bulk_create` commits the ledger rows.  When that commit violates the
unique (channel_id, message_id) index it raises, so the watermark
assignment and the `return len(documents)` are never reached: the error
propagates with the vector store already updated and the ledger and
channel untouched. -/
def indexChannelPosts (st : IngestState) (ch : Channel) (docs : List Document) :
    Except PassError Nat × IngestState × Channel :=
  if (indexLoop st.ledger ch.id docs [] none).1.isEmpty then
    (Except.ok (indexLoop st.ledger ch.id docs [] none).1.length, st,
      applyWatermark ch (indexLoop st.ledger ch.id docs [] none).2)
  else if bulkCreateOk st.ledger
      (passRows ch (indexLoop st.ledger ch.id docs [] none).1) then
    (Except.ok (indexLoop st.ledger ch.id docs [] none).1.length,
      { vectorstore := st.vectorstore ++ (indexLoop st.ledger ch.id docs [] none).1,
        ledger := st.ledger ++ passRows ch (indexLoop st.ledger ch.id docs [] none).1 },
      applyWatermark ch (indexLoop st.ledger ch.id docs [] none).2)
  else
    (Except.error PassError.integrityError,
      { vectorstore := st.vectorstore ++ (indexLoop st.ledger ch.id docs [] none).1,
        ledger := st.ledger },
      ch)

/-- Exceptions of `backend/core/exceptions.py` reachable from the claims
(`parserError` stands for the re-raised `TelegramParserException` /
propagated indexing failure). -/
inductive ServiceError where
  | alreadyExists
  | notFound
  | parserError
deriving DecidableEq, Repr

/-- The Catalog channel table plus the external ingest state, threaded
through `ChannelService` operations. -/
structure Store where
  channels : List Channel
  nextId : Int
  ingest : IngestState
deriving DecidableEq, Repr

/-- `AsyncChannelRepository.get_by_username`. -/
def getByUsername (channels : List Channel) (u : String) : Option Channel :=
  channels.find? (fun c => c.username = u)

/-- `channel_repo.update`: persist a channel record by id. -/
def updateChannel (channels : List Channel) (ch : Channel) : List Channel :=
  channels.map (fun c => if c.id = ch.id then ch else c)

/-- `ChannelService._extract_username`. -/
def extractUsername (link : String) : String :=
  if link.startsWith "@" then link.drop 1
  else if (link.splitOn "t.me/").length > 1 then
    ((((link.splitOn "t.me/").getLastD "").splitOn "/").headD "").splitOn "?" |>.headD ""
  else link.trim

/-- `ChannelService.add_channel`: resolve channel info, fail with
`AlreadyExists` when the normalized handle is already in the Catalog,
otherwise create the record with status `indexing` and (optionally) run
the initial indexing pass.  `getInfo` models
`IChannelParser.get_channel_info` and `stream` the posts the source would
yield.  When the pass raises (here: the IntegrityError path), the
`except` branch marks the already-created record `error` — it is retained,
not rolled back — and re-raises as a `TelegramParserException`.  A failure
of `get_channel_info` itself cannot arise in this pure model. -/
def addChannel (getInfo : String → ChannelInfo) (stream : List Document)
    (st : Store) (link : String) (indexPosts : Bool) :
    Store × Except ServiceError Channel :=
  let info := getInfo link
  match getByUsername st.channels info.username with
  | some _ => (st, .error .alreadyExists)
  | none =>
    let ch : Channel :=
      { id := st.nextId, telegram_id := info.telegram_id, username := info.username,
        title := info.title, description := info.description, link := info.link,
        status := .indexing, posts_count := 0, last_post_date := none }
    let st1 : Store := { st with channels := st.channels ++ [ch], nextId := st.nextId + 1 }
    if indexPosts then
      match indexChannelPosts st1.ingest ch stream with
      | (Except.ok n, ing2, ch2) =>
        let ch3 := { ch2 with posts_count := n, status := ChannelStatus.active }
        ({ st1 with ingest := ing2, channels := updateChannel st1.channels ch3 }, .ok ch3)
      | (Except.error _, ing2, _) =>
        let ch3 := { ch with status := ChannelStatus.error }
        ({ st1 with ingest := ing2, channels := updateChannel st1.channels ch3 },
          .error .parserError)
    else
      let ch2 := { ch with status := ChannelStatus.active }
      ({ st1 with channels := updateChannel st1.channels ch2 }, .ok ch2)

/-- `ChannelService.refresh_channel`: `NotFound` for an unknown handle,
otherwise run the indexing pass (the watermark `offset_date =
channel.last_post_date` is merely forwarded to the source, which shapes
`stream`) and increment `posts_count` by the number of new posts.  A pass
failure propagates uncaught: the increment and the catalog update are not
reached, but the vector store may already have been written. -/
def refreshChannel (stream : List Document) (st : Store) (link : String) :
    Store × Except ServiceError Nat :=
  let username := extractUsername link
  match getByUsername st.channels username with
  | none => (st, .error .notFound)
  | some ch =>
    match indexChannelPosts st.ingest ch stream with
    | (Except.ok n, ing2, ch2) =>
      let ch3 := { ch2 with posts_count := ch2.posts_count + n }
      ({ st with ingest := ing2, channels := updateChannel st.channels ch3 }, .ok n)
    | (Except.error _, ing2, _) =>
      ({ st with ingest := ing2 }, .error .parserError)

/-- `settings.retrieval_k` (`backend/core/config.py`, default configuration). -/
def retrievalK : Nat := 5

/-- Python `k = k or settings.retrieval_k`: `None` and `0` are both falsy
and fall back to the configured default. -/
def effectiveK (k : Option Nat) : Nat :=
  match k with
  | none => retrievalK
  | some n => if n = 0 then retrievalK else n

/-- Comparator of `all_results.sort(key=lambda x: x.score, reverse=True)`:
Python sort is stable and `reverse=True` keeps equal keys in encounter
order, which is exactly stable `mergeSort` under this relation. -/
def scoreDesc (a b : SearchResult) : Bool := decide (b.score ≤ a.score)

/-- `RetrievalService.retrieve`.  `search` models the injected
`IVectorStoreRepository.search(query, k, filter_dict)`; the only filter the
service ever passes is `{"channel": c}`, modelled as `Option String`.
Python `channels: Optional[List[str]]` with `if channels:` treats `None`
and `[]` alike, so `channels` is a plain list here. -/
def retrieve (search : String → Nat → Option String → List SearchResult)
    (q : String) (k : Option Nat) (channels : List String) (minScore : Rat) :
    List SearchResult :=
  let k := effectiveK k
  let results :=
    match channels with
    | [] => search q k none
    | _ :: _ =>
      let all := (channels.map (fun c => search q k (some c))).flatten
      (all.mergeSort scoreDesc).take k
  if 0 < minScore then results.filter (fun r => decide (minScore ≤ r.score)) else results

/-- `RetrievalService.aretrieve`: the asynchronous variant, whose body is
the same algorithm over `asearch` (modelled by the same abstract `search`
parameter). -/
def aretrieve (search : String → Nat → Option String → List SearchResult)
    (q : String) (k : Option Nat) (channels : List String) (minScore : Rat) :
    List SearchResult :=
  let k := effectiveK k
  let results :=
    match channels with
    | [] => search q k none
    | _ :: _ =>
      let all := (channels.map (fun c => search q k (some c))).flatten
      (all.mergeSort scoreDesc).take k
  if 0 < minScore then results.filter (fun r => decide (minScore ≤ r.score)) else results

/-- `RetrievalService.get_context_texts`. -/
def getContextTexts (results : List SearchResult) : List String :=
  results.map (fun r => r.document.content)

/-- `backend/domain/completion.py` `CompletionRequest` (question, optional
result-count bound, optional channel allow-list). -/
structure CompletionRequest where
  question : String
  top_k : Option Nat
  channels : List String
deriving DecidableEq, Repr

/-- `backend/domain/completion.py` `SourceReference`. -/
structure SourceReference where
  channel : String
  date : Option Datetime
  post_id : Option Int
  url : Option String
  relevance_score : Rat
deriving DecidableEq, Repr

/-- `backend/domain/completion.py` `CompletionResponse`
(`processing_time` is a wall-clock measurement and not modelled). -/
structure CompletionResponse where
  answer : String
  sources : List SourceReference
deriving DecidableEq, Repr

/-- The fixed no-relevant-information answer of `CompletionService`. -/
def noInfoAnswer : String :=
  "К сожалению, не удалось найти релевантную информацию по вашему запросу."

/-- `CompletionService._build_sources` (Python `metadata.channel or
"unknown"`: the empty string is falsy). -/
def buildSources (results : List SearchResult) : List SourceReference :=
  results.map (fun r =>
    { channel := if r.document.metadata.channel = "" then "unknown"
                 else r.document.metadata.channel,
      date := r.document.metadata.date,
      post_id := r.document.metadata.message_id,
      url := r.document.metadata.url,
      relevance_score := r.score })

/-- `CompletionService.complete`: retrieve with the request bounds
(`min_score` left at its default `0`), short-circuit on an empty result
with the fixed answer and no model call, otherwise invoke the generative
model (`llm question contextTexts`, modelling
`generate_with_context`) and cite every retrieved result.  The function is
total: the empty-retrieval case is an ordinary return value, not an
error. -/
def complete (search : String → Nat → Option String → List SearchResult)
    (llm : String → List String → String) (req : CompletionRequest) :
    CompletionResponse :=
  let searchResults := retrieve search req.question req.top_k req.channels 0
  match searchResults with
  | [] => { answer := noInfoAnswer, sources := [] }
  | _ :: _ =>
    { answer := llm req.question (getContextTexts searchResults),
      sources := buildSources searchResults }

/-- `backend/domain/completion.py` `SummaryRequest` (period bounds and
optional channel allow-list; the topic bound is unused by the service). -/
structure SummaryRequest where
  start_date : Datetime
  end_date : Datetime
  channels : List String
deriving DecidableEq, Repr

/-- `backend/domain/completion.py` `SummaryResponse`
(`processing_time` not modelled; `channels_included` comes from a Python
`set` whose iteration order is unspecified — modelled as first-occurrence
deduplication). -/
structure SummaryResponse where
  summary : String
  posts_processed : Nat
  period : String
  topics : List String
  channels_included : List String
deriving DecidableEq, Repr

/-- `SummaryService._format_period`. -/
def formatPeriod (startDate endDate : Datetime) : String :=
  strftimeDMY startDate ++ " — " ++ strftimeDMY endDate

/-- The period test inside `SummaryService._filter_by_period`: documents
without a date skip the test entirely; dated documents are compared on
wall-clock values after both sides are normalized to naive
(`replace(tzinfo=None)`), avoiding the aware/naive `TypeError`.
(`hasattr(doc_date, "replace")` always holds for a datetime.) -/
def periodOk (startDate endDate : Datetime) (r : SearchResult) : Bool :=
  match r.document.metadata.date with
  | none => true
  | some d =>
    decide ((stripTz startDate).wall ≤ (stripTz d).wall) &&
      decide ((stripTz d).wall ≤ (stripTz endDate).wall)

/-- The allow-list test inside `SummaryService._filter_by_period`: with a
non-empty list, only a document carrying a non-empty channel name that is
not in the list is dropped (`if doc_channel and doc_channel not in
channels: continue`). -/
def channelOk (channels : List String) (r : SearchResult) : Bool :=
  match channels with
  | [] => true
  | _ :: _ =>
    if r.document.metadata.channel = "" then true
    else decide (r.document.metadata.channel ∈ channels)

/-- `SummaryService._filter_by_period`: the append loop keeps exactly the
results passing both tests, in order. -/
def filterByPeriod (results : List SearchResult) (startDate endDate : Datetime)
    (channels : List String) : List SearchResult :=
  results.filter (fun r => periodOk startDate endDate r && channelOk channels r)

/-- The per-document block of `SummaryService._prepare_news_content`:
`f"[{channel}, {date_str}]\n{result.content}\n"` with `channel or
"unknown"` and `strftime`/`"N/A"` for the date. -/
def newsPart (r : SearchResult) : String :=
  let channel := if r.document.metadata.channel = "" then "unknown"
                 else r.document.metadata.channel
  let dateStr := match r.document.metadata.date with
    | some d => strftimeDMY d
    | none => "N/A"
  "[" ++ channel ++ ", " ++ dateStr ++ "]\n" ++ r.document.content ++ "\n"

/-- The character budget of `_prepare_news_content` (`max_chars = 10000`,
always called with the default). -/
def maxNewsChars : Nat := 10000

/-- The accumulation loop of `_prepare_news_content`: append parts in
retrieval order, stopping (`break`) at the first part that would push the
running total over the budget. -/
def newsPartsAux (maxChars : Nat) : List SearchResult → Nat → List String
  | [], _ => []
  | r :: rest, total =>
    let part := newsPart r
    if maxChars < total + part.length then []
    else part :: newsPartsAux maxChars rest (total + part.length)

/-- `SummaryService._prepare_news_content`. -/
def prepareNewsContent (results : List SearchResult) (maxChars : Nat) : String :=
  String.intercalate "\n---\n" (newsPartsAux maxChars results 0)

/-- `SUMMARY_SYSTEM_PROMPT`. -/
def summarySystemPrompt : String :=
  "Ты — AI-ассистент для анализа новостей из Telegram-каналов.\nТвоя задача — создать краткое и информативное саммари новостей за указанный период.\nГруппируй новости по темам, выделяй ключевые события."

/-- `SUMMARY_PROMPT_TEMPLATE.format(period=..., news_content=...)`. -/
def summaryPromptBody (period newsContent : String) : String :=
  "Новости за период " ++ period ++ ":\n\n" ++ newsContent ++
    "\n\n---\n\nСоздай структурированное саммари этих новостей:\n1. Выдели 3-5 основных тем\n2. Для каждой темы кратко опиши ключевые события\n3. В конце добавь общий вывод\n4. Если в контексте недостаточно информации для ответа на вопрос - сообщи об этом\n\nФормат ответа:\n📰 САММАРИ НОВОСТЕЙ ЗА " ++ period ++
    "\n\n📌 [Тема 1]:\n- ...\n\n📌 [Тема 2]:\n- ...\n\n💡 Общий вывод:\n..."

/-- `SummaryService.generate_summary`: one broad search seeded with the
period phrase (`k = 50`, no filter), local filtering to the period and
allow-list, fixed no-news response on an empty filtered set, otherwise one
generative call over the budget-capped concatenation.  `posts_processed`
is assigned `len(filtered_results)`. -/
def generateSummary (search : String → Nat → Option String → List SearchResult)
    (llm : String → String) (req : SummaryRequest) : SummaryResponse :=
  let periodStr := formatPeriod req.start_date req.end_date
  let query := "новости события " ++ periodStr
  let results := search query 50 none
  let filtered := filterByPeriod results req.start_date req.end_date req.channels
  if filtered.isEmpty then
    { summary := "Не найдено новостей за период " ++ periodStr,
      posts_processed := 0, period := periodStr, topics := [],
      channels_included := [] }
  else
    let newsContent := prepareNewsContent filtered maxNewsChars
    let fullPrompt := summarySystemPrompt ++ "\n\n" ++ summaryPromptBody periodStr newsContent
    { summary := llm fullPrompt,
      posts_processed := filtered.length,
      period := periodStr, topics := [],
      channels_included :=
        ((filtered.map (fun r => r.document.metadata.channel)).filter
          (fun c => c ≠ "")).eraseDups }

/-! ## Helper lemmas about the indexing pass -/

theorem ledgerExists_iff (ledger : List (Int × Int)) (c m : Int) :
    ledgerExists ledger c m = true ↔ (c, m) ∈ ledger := by
  simp only [ledgerExists, List.any_eq_true, Bool.and_eq_true, decide_eq_true_eq]
  constructor
  · rintro ⟨⟨pc, pm⟩, hp, h1, h2⟩
    subst h1
    subst h2
    exact hp
  · intro h
    exact ⟨(c, m), h, rfl, rfl⟩

theorem indexLoop_buf_mono (ledger : List (Int × Int)) (cid : Int) :
    ∀ (docs buf : List Document) (last : Option Datetime) (x : Document),
      x ∈ buf → x ∈ (indexLoop ledger cid docs buf last).1 := by
  intro docs
  induction docs with
  | nil =>
    intro buf last x hx
    simpa [indexLoop] using hx
  | cons d rest ih =>
    intro buf last x hx
    by_cases h : shouldSkip ledger cid d = true
    · simp only [indexLoop]
      rw [if_pos h]
      exact ih buf last x hx
    · simp only [indexLoop]
      rw [if_neg h]
      exact ih _ _ x (List.mem_append_left _ hx)

theorem indexLoop_mem (ledger : List (Int × Int)) (cid : Int) :
    ∀ (docs buf : List Document) (last : Option Datetime) (d : Document),
      d ∈ docs → shouldSkip ledger cid d = false →
      d ∈ (indexLoop ledger cid docs buf last).1 := by
  intro docs
  induction docs with
  | nil =>
    intro buf last d hd _
    exact absurd hd (List.not_mem_nil d)
  | cons d0 rest ih =>
    intro buf last d hd hskip
    rcases List.mem_cons.mp hd with rfl | hd'
    · simp only [indexLoop]
      rw [if_neg (by simp [hskip])]
      exact indexLoop_buf_mono ledger cid rest _ _ d
        (List.mem_append_right _ (List.mem_singleton.mpr rfl))
    · by_cases h0 : shouldSkip ledger cid d0 = true
      · simp only [indexLoop]
        rw [if_pos h0]
        exact ih _ _ d hd' hskip
      · simp only [indexLoop]
        rw [if_neg h0]
        exact ih _ _ d hd' hskip

theorem updLast_eq_some (last dd : Option Datetime) (t : Datetime)
    (h : updLast last dd = some t) : last = some t ∨ dd = some t := by
  cases dd with
  | none => exact Or.inl h
  | some t0 =>
    cases last with
    | none => exact Or.inr h
    | some w =>
      by_cases hk : w.key < t0.key
      · right
        simpa [updLast, hk] using h
      · left
        simpa [updLast, hk] using h

theorem indexLoop_last_src (ledger : List (Int × Int)) (cid : Int) :
    ∀ (docs buf : List Document) (last : Option Datetime) (t : Datetime),
      (indexLoop ledger cid docs buf last).2 = some t →
      last = some t ∨ ∃ d ∈ docs, d.metadata.date = some t := by
  intro docs
  induction docs with
  | nil =>
    intro buf last t h
    left
    simpa [indexLoop] using h
  | cons d0 rest ih =>
    intro buf last t h
    by_cases h0 : shouldSkip ledger cid d0 = true
    · rw [indexLoop.eq_def] at h
      simp only [] at h
      rw [if_pos h0] at h
      rcases ih _ _ _ h with hl | ⟨d, hd, hdt⟩
      · exact Or.inl hl
      · exact Or.inr ⟨d, List.mem_cons_of_mem _ hd, hdt⟩
    · rw [indexLoop.eq_def] at h
      simp only [] at h
      rw [if_neg h0] at h
      rcases ih _ _ _ h with hl | ⟨d, hd, hdt⟩
      · rcases updLast_eq_some _ _ _ hl with hl' | hd0
        · exact Or.inl hl'
        · exact Or.inr ⟨d0, List.mem_cons_self _ _, hd0⟩
      · exact Or.inr ⟨d, List.mem_cons_of_mem _ hd, hdt⟩

theorem indexLoop_skipAll (ledger : List (Int × Int)) (cid : Int) :
    ∀ (docs buf : List Document) (last : Option Datetime),
      (∀ d ∈ docs, shouldSkip ledger cid d = true) →
      indexLoop ledger cid docs buf last = (buf, last) := by
  intro docs
  induction docs with
  | nil =>
    intro buf last _
    rfl
  | cons d0 rest ih =>
    intro buf last hall
    simp only [indexLoop]
    rw [if_pos (hall d0 (List.mem_cons_self _ _))]
    exact ih _ _ (fun d hd => hall d (List.mem_cons_of_mem _ hd))

theorem indexLoop_sublist (ledger : List (Int × Int)) (cid : Int) :
    ∀ (docs buf : List Document) (last : Option Datetime),
      ((indexLoop ledger cid docs buf last).1).Sublist (buf ++ docs) := by
  intro docs
  induction docs with
  | nil =>
    intro buf last
    simp [indexLoop]
  | cons d0 rest ih =>
    intro buf last
    by_cases h0 : shouldSkip ledger cid d0 = true
    · simp only [indexLoop]
      rw [if_pos h0]
      exact (ih buf last).trans
        (List.Sublist.append_left (List.sublist_cons_self d0 rest) buf)
    · simp only [indexLoop]
      rw [if_neg h0]
      have := ih (buf ++ [d0]) (updLast last d0.metadata.date)
      simpa using this

theorem indexLoop_mem_buf_skip (ledger : List (Int × Int)) (cid : Int) :
    ∀ (docs buf : List Document) (last : Option Datetime) (x : Document),
      x ∈ (indexLoop ledger cid docs buf last).1 →
      x ∈ buf ∨ shouldSkip ledger cid x = false := by
  intro docs
  induction docs with
  | nil =>
    intro buf last x hx
    exact Or.inl (by simpa [indexLoop] using hx)
  | cons d0 rest ih =>
    intro buf last x hx
    by_cases h0 : shouldSkip ledger cid d0 = true
    · simp only [indexLoop] at hx
      rw [if_pos h0] at hx
      exact ih _ _ x hx
    · simp only [indexLoop] at hx
      rw [if_neg h0] at hx
      rcases ih _ _ x hx with hb | hs
      · rcases List.mem_append.mp hb with hb' | hb'
        · exact Or.inl hb'
        · rcases List.mem_singleton.mp hb' with rfl
          exact Or.inr (by simpa using h0)
      · exact Or.inr hs

theorem applyWatermark_id (ch : Channel) (last : Option Datetime) :
    (applyWatermark ch last).id = ch.id := by
  cases last <;> simp [applyWatermark]

theorem indexChannelPosts_id (st : IngestState) (ch : Channel) (docs : List Document) :
    (indexChannelPosts st ch docs).2.2.id = ch.id := by
  unfold indexChannelPosts
  by_cases h1 : ((indexLoop st.ledger ch.id docs [] none).1).isEmpty = true
  · rw [if_pos h1]
    exact applyWatermark_id ch _
  · rw [if_neg h1]
    by_cases h2 : bulkCreateOk st.ledger
        (passRows ch (indexLoop st.ledger ch.id docs [] none).1) = true
    · rw [if_pos h2]
      exact applyWatermark_id ch _
    · rw [if_neg h2]

theorem indexChannelPosts_ledger_of_ok (st : IngestState) (ch : Channel)
    (docs : List Document)
    (hOk : bulkCreateOk st.ledger
      (passRows ch (indexLoop st.ledger ch.id docs [] none).1) = true) :
    (indexChannelPosts st ch docs).2.1.ledger
      = st.ledger ++ passRows ch (indexLoop st.ledger ch.id docs [] none).1 := by
  unfold indexChannelPosts
  by_cases h1 : ((indexLoop st.ledger ch.id docs [] none).1).isEmpty = true
  · rw [if_pos h1]
    have hnil : (indexLoop st.ledger ch.id docs [] none).1 = [] :=
      List.isEmpty_iff.mp h1
    simp [passRows, hnil]
  · rw [if_neg h1, if_pos hOk]

theorem indexChannelPosts_ledger_mem (st : IngestState) (ch : Channel)
    (docs : List Document) (d : Document) (m : Int)
    (hOk : bulkCreateOk st.ledger
      (passRows ch (indexLoop st.ledger ch.id docs [] none).1) = true)
    (hd : d ∈ docs) (hm : d.metadata.message_id = some m) :
    (ch.id, m) ∈ (indexChannelPosts st ch docs).2.1.ledger := by
  rw [indexChannelPosts_ledger_of_ok st ch docs hOk]
  by_cases hsk : shouldSkip st.ledger ch.id d = true
  · have hin : (ch.id, m) ∈ st.ledger := by
      unfold shouldSkip at hsk
      rw [hm] at hsk
      simp only [Bool.and_eq_true, decide_eq_true_eq] at hsk
      exact (ledgerExists_iff _ _ _).mp hsk.2
    exact List.mem_append_left _ hin
  · have hbuf : d ∈ (indexLoop st.ledger ch.id docs [] none).1 :=
      indexLoop_mem st.ledger ch.id docs [] none d hd (by simpa using hsk)
    apply List.mem_append_right
    have : (ch.id, d.metadata.message_id.getD 0) ∈
        passRows ch (indexLoop st.ledger ch.id docs [] none).1 :=
      List.mem_map_of_mem _ hbuf
    rw [hm] at this
    simpa using this

/-- Under the hypotheses of the amended claim C1, the first pass never
violates the unique (channel_id, message_id) index: the buffered rows are
pairwise distinct (the stream carries pairwise distinct message ids) and
none of them is already in the ledger (those were skipped by the loop). -/
theorem bulkCreateOk_of_nodup (st : IngestState) (ch : Channel) (docs : List Document)
    (hmid : ∀ d ∈ docs, ∃ m, d.metadata.message_id = some m ∧ m ≠ 0)
    (hnodup : (docs.map (fun d => d.metadata.message_id)).Nodup) :
    bulkCreateOk st.ledger
      (passRows ch (indexLoop st.ledger ch.id docs [] none).1) = true := by
  have hsub : ((indexLoop st.ledger ch.id docs [] none).1).Sublist docs := by
    simpa using indexLoop_sublist st.ledger ch.id docs [] none
  have hmsg : ((indexLoop st.ledger ch.id docs [] none).1).Pairwise
      (fun a b => a.metadata.message_id ≠ b.metadata.message_id) :=
    List.Pairwise.sublist hsub (List.pairwise_map.mp hnodup)
  have hrowsNodup : (passRows ch (indexLoop st.ledger ch.id docs [] none).1).Nodup := by
    unfold passRows
    apply List.pairwise_map.mpr
    apply List.Pairwise.imp_of_mem ?_ hmsg
    intro a b ha hb hne heq
    obtain ⟨ma, hma, _⟩ := hmid a (hsub.subset ha)
    obtain ⟨mb, hmb, _⟩ := hmid b (hsub.subset hb)
    apply hne
    rw [hma, hmb]
    rw [hma, hmb] at heq
    simpa using congrArg Prod.snd heq
  have hrowsNew : ∀ p ∈ passRows ch (indexLoop st.ledger ch.id docs [] none).1,
      p ∉ st.ledger := by
    intro p hp
    rcases List.mem_map.mp hp with ⟨d, hdbuf, rfl⟩
    obtain ⟨m, hm, hm0⟩ := hmid d (hsub.subset hdbuf)
    rcases indexLoop_mem_buf_skip st.ledger ch.id docs [] none d hdbuf with hb | hs
    · exact absurd hb (List.not_mem_nil d)
    · unfold shouldSkip at hs
      rw [hm] at hs
      simp only [Bool.and_eq_true, decide_eq_true_eq] at hs
      intro hmem
      have hle : ledgerExists st.ledger ch.id m = true := by
        apply (ledgerExists_iff _ _ _).mpr
        rw [hm] at hmem
        simpa using hmem
      rcases Bool.and_eq_false_iff.mp hs with h | h
      · simp [hm0] at h
      · rw [hle] at h
        cases h
  unfold bulkCreateOk
  rw [Bool.and_eq_true]
  constructor
  · exact decide_eq_true hrowsNodup
  · rw [List.all_eq_true]
    intro p hp
    exact decide_eq_true (hrowsNew p hp)

/-! ## Claim C1 -/

/-- Claim C1, amended.  For every channel and every source that yields, on
each call, the same sequence of documents, each carrying a known
(non-null, non-zero) source message id, with message ids pairwise
distinct within the stream, running the indexing pass twice with no
watermark change stores the same totals as running it once: the first
pass commits cleanly (its batch cannot violate the unique (channel_id,
message_id) index), and the second pass skips every document — its pair
is already in the Catalog ledger — inserts nothing into either store,
returns 0 and leaves the external state and the channel unchanged.
(The amendment restricts the claim to streams of distinct known message
ids: the code only consults the dedup ledger under
`if doc.metadata.message_id:`, so a document with message id `None` or
`0` is re-buffered by every pass, re-written to the vector index, and
then makes the Catalog commit raise IntegrityError on the duplicate
(channel-id, 0) row — see the counterexample; a stream repeating a known
message id likewise makes the FIRST pass raise at commit.) -/
theorem indexing_pass_idempotent (st : IngestState) (ch : Channel) (docs : List Document)
    (hmid : ∀ d ∈ docs, ∃ m, d.metadata.message_id = some m ∧ m ≠ 0)
    (hnodup : (docs.map (fun d => d.metadata.message_id)).Nodup) :
    indexChannelPosts (indexChannelPosts st ch docs).2.1
        (indexChannelPosts st ch docs).2.2 docs
      = (Except.ok 0, (indexChannelPosts st ch docs).2.1,
          (indexChannelPosts st ch docs).2.2) ∧
    (indexChannelPosts (indexChannelPosts st ch docs).2.1
        (indexChannelPosts st ch docs).2.2 docs).2.1.vectorstore.length
      = (indexChannelPosts st ch docs).2.1.vectorstore.length := by
  have hOk := bulkCreateOk_of_nodup st ch docs hmid hnodup
  have hid := indexChannelPosts_id st ch docs
  have hall : ∀ d ∈ docs,
      shouldSkip (indexChannelPosts st ch docs).2.1.ledger
        (indexChannelPosts st ch docs).2.2.id d = true := by
    intro d hd
    obtain ⟨m, hm, hm0⟩ := hmid d hd
    have hmem : (ch.id, m) ∈ (indexChannelPosts st ch docs).2.1.ledger :=
      indexChannelPosts_ledger_mem st ch docs d m hOk hd hm
    unfold shouldSkip
    rw [hm]
    simp only [Bool.and_eq_true, decide_eq_true_eq]
    exact ⟨hm0, (ledgerExists_iff _ _ _).mpr (by rw [hid]; exact hmem)⟩
  have hloop := indexLoop_skipAll (indexChannelPosts st ch docs).2.1.ledger
    (indexChannelPosts st ch docs).2.2.id docs [] none hall
  constructor
  · conv_lhs => rw [indexChannelPosts]
    rw [hloop]
    rfl
  · conv_lhs => rw [indexChannelPosts]
    rw [hloop]
    rfl

def w1Channel : Channel :=
  { id := 1, telegram_id := some 100, username := "news_x", title := some "News",
    description := none, link := "https://t.me/news_x", status := .active,
    posts_count := 0, last_post_date := none }

def w1Doc : Document :=
  { id := some "news_x_7", content := "post seven",
    metadata := { channel := "news_x", channel_id := some 100, message_id := some 7,
                  date := some ⟨100, none⟩, url := some "https://t.me/news_x/7",
                  views := some 3 } }

/-- Witness for `indexing_pass_idempotent` at a concrete one-document
source: both hypotheses hold and the second pass is a no-op. -/
theorem indexing_pass_idempotent_witness :
    (∀ d ∈ [w1Doc], ∃ m, d.metadata.message_id = some m ∧ m ≠ 0) ∧
    (([w1Doc].map (fun d => d.metadata.message_id)).Nodup) ∧
    indexChannelPosts (indexChannelPosts ⟨[], []⟩ w1Channel [w1Doc]).2.1
        (indexChannelPosts ⟨[], []⟩ w1Channel [w1Doc]).2.2 [w1Doc]
      = (Except.ok 0, (indexChannelPosts ⟨[], []⟩ w1Channel [w1Doc]).2.1,
          (indexChannelPosts ⟨[], []⟩ w1Channel [w1Doc]).2.2) := by
  have hmid : ∀ d ∈ [w1Doc], ∃ m, d.metadata.message_id = some m ∧ m ≠ 0 := by
    intro d hd
    rcases List.mem_singleton.mp hd with rfl
    exact ⟨7, rfl, by decide⟩
  have hnodup : (([w1Doc].map (fun d => d.metadata.message_id)).Nodup) := by decide
  exact ⟨hmid, hnodup,
    (indexing_pass_idempotent ⟨[], []⟩ w1Channel [w1Doc] hmid hnodup).1⟩

def cex1Channel : Channel :=
  { id := 1, telegram_id := some 100, username := "news_x", title := some "News",
    description := none, link := "https://t.me/news_x", status := .active,
    posts_count := 0, last_post_date := none }

/-- A document without a known source message id (Python `message_id =
None`, falsy), as the arbitrary `ChannelSource` of the claim may yield. -/
def cex1Doc : Document :=
  { id := none, content := "a media post without message id",
    metadata := { channel := "news_x", channel_id := some 100, message_id := none,
                  date := none, url := none, views := none } }

/-- Counterexample to claim C1 as stated.  A source yielding one document
with no message id defeats the dedup check (`if doc.metadata.message_id:`
is falsy), so the second pass buffers it again: the vector index is
written a second time (the document also has no document id, so Qdrant
mints a fresh point on each call) BEFORE `bulk_create` hits the unique
(channel_id, message_id) index with a second (1, 0) row and raises
IntegrityError.  After two passes the vector store holds 2 documents
against 1 after one pass, the ledger still holds the single (1, 0) row,
and the second pass errors out instead of idempotently skipping the
already-recorded document. -/
theorem indexing_pass_idempotent_cex :
    (indexChannelPosts ⟨[], []⟩ cex1Channel [cex1Doc]).1 = Except.ok 1 ∧
    (indexChannelPosts ⟨[], []⟩ cex1Channel [cex1Doc]).2.1.ledger = [(1, 0)] ∧
    (indexChannelPosts ⟨[], []⟩ cex1Channel [cex1Doc]).2.1.vectorstore.length = 1 ∧
    (indexChannelPosts (indexChannelPosts ⟨[], []⟩ cex1Channel [cex1Doc]).2.1
        (indexChannelPosts ⟨[], []⟩ cex1Channel [cex1Doc]).2.2 [cex1Doc]).1
      = Except.error PassError.integrityError ∧
    (indexChannelPosts (indexChannelPosts ⟨[], []⟩ cex1Channel [cex1Doc]).2.1
        (indexChannelPosts ⟨[], []⟩ cex1Channel [cex1Doc]).2.2 [cex1Doc]).2.1.ledger
      = [(1, 0)] ∧
    (indexChannelPosts (indexChannelPosts ⟨[], []⟩ cex1Channel [cex1Doc]).2.1
        (indexChannelPosts ⟨[], []⟩ cex1Channel [cex1Doc]).2.2 [cex1Doc]).2.1.vectorstore.length
      = 2 := by
  decide

/-! ## Claim C2 -/

/-- Claim C2, amended.  The watermark is assigned the maximum publish
timestamp among the documents buffered by the pass (`channel.last_post_date
= last_post_date`, with no comparison against the old value), so
`lastPostDate` is monotonically non-decreasing across indexing passes
PROVIDED every newly ingested document is dated at or after the current
watermark — e.g. when the source honours the watermark.  For a source that
ignores it and yields a new, older-dated document the watermark regresses
(see the counterexample), so the quantification of the claim over every
behaviour of the ChannelSource fails. -/
theorem watermark_monotone (st : IngestState) (ch : Channel) (docs : List Document)
    (hdates : ∀ d ∈ docs, ∀ t, d.metadata.date = some t →
        ∀ w, ch.last_post_date = some w → w.key ≤ t.key)
    (w : Datetime) (hw : ch.last_post_date = some w) :
    ∃ t, (indexChannelPosts st ch docs).2.2.last_post_date = some t ∧ w.key ≤ t.key := by
  have happ : ∃ t, (applyWatermark ch
      (indexLoop st.ledger ch.id docs [] none).2).last_post_date = some t ∧
      w.key ≤ t.key := by
    cases hlast : (indexLoop st.ledger ch.id docs [] none).2 with
    | none => exact ⟨w, by simp [applyWatermark, hw], le_refl _⟩
    | some t =>
      rcases indexLoop_last_src st.ledger ch.id docs [] none t hlast with h | ⟨d, hd, hdt⟩
      · cases h
      · exact ⟨t, by simp [applyWatermark], hdates d hd t hdt w hw⟩
  unfold indexChannelPosts
  by_cases h1 : ((indexLoop st.ledger ch.id docs [] none).1).isEmpty = true
  · rw [if_pos h1]
    exact happ
  · rw [if_neg h1]
    by_cases h2 : bulkCreateOk st.ledger
        (passRows ch (indexLoop st.ledger ch.id docs [] none).1) = true
    · rw [if_pos h2]
      exact happ
    · rw [if_neg h2]
      exact ⟨w, hw, le_refl _⟩

def w2Channel : Channel :=
  { id := 1, telegram_id := some 100, username := "news_x", title := none,
    description := none, link := "https://t.me/news_x", status := .active,
    posts_count := 1, last_post_date := some ⟨10, none⟩ }

def w2Doc : Document :=
  { id := some "news_x_2", content := "newer post",
    metadata := { channel := "news_x", channel_id := some 100, message_id := some 2,
                  date := some ⟨20, none⟩, url := none, views := none } }

/-- Witness for `watermark_monotone`: a refresh that ingests one newer
post advances the watermark. -/
theorem watermark_monotone_witness :
    (∀ d ∈ [w2Doc], ∀ t, d.metadata.date = some t →
        ∀ w, w2Channel.last_post_date = some w → w.key ≤ t.key) ∧
    w2Channel.last_post_date = some ⟨10, none⟩ ∧
    (∃ t, (indexChannelPosts ⟨[], []⟩ w2Channel [w2Doc]).2.2.last_post_date = some t ∧
        Datetime.key ⟨10, none⟩ ≤ t.key) := by
  have hdates : ∀ d ∈ [w2Doc], ∀ t, d.metadata.date = some t →
      ∀ w, w2Channel.last_post_date = some w → w.key ≤ t.key := by
    intro d hd t ht w hw
    rcases List.mem_singleton.mp hd with rfl
    have ht2 : some (⟨20, none⟩ : Datetime) = some t := ht
    have hw2 : some (⟨10, none⟩ : Datetime) = some w := hw
    cases ht2
    cases hw2
    decide
  exact ⟨hdates, rfl, watermark_monotone ⟨[], []⟩ w2Channel [w2Doc] hdates ⟨10, none⟩ rfl⟩

def cex2Channel : Channel :=
  { id := 1, telegram_id := some 100, username := "news_x", title := none,
    description := none, link := "https://t.me/news_x", status := .active,
    posts_count := 1, last_post_date := some ⟨10, none⟩ }

/-- A new (never-ingested) document dated BEFORE the current watermark, as
a source that ignores or approximates the watermark may yield. -/
def cex2Doc : Document :=
  { id := some "news_x_1", content := "older post",
    metadata := { channel := "news_x", channel_id := some 100, message_id := some 1,
                  date := some ⟨5, none⟩, url := none, views := none } }

/-- Counterexample to claim C2 as stated: the channel watermark is 10;
one indexing pass over a source yielding a new document dated 5 REGRESSES
`last_post_date` from `10` to `5`, because the code assigns the buffered
maximum without comparing it to the old watermark. -/
theorem watermark_monotone_cex :
    cex2Channel.last_post_date = some ⟨10, none⟩ ∧
    (indexChannelPosts ⟨[], []⟩ cex2Channel [cex2Doc]).2.2.last_post_date = some ⟨5, none⟩ ∧
    Datetime.key ⟨5, none⟩ < Datetime.key ⟨10, none⟩ := by
  decide

/-! ## Helper lemmas about retrieval -/

theorem scoreDesc_trans : ∀ a b c : SearchResult,
    scoreDesc a b = true → scoreDesc b c = true → scoreDesc a c = true := by
  intro a b c hab hbc
  simp only [scoreDesc, decide_eq_true_eq] at hab hbc ⊢
  exact le_trans hbc hab

theorem scoreDesc_total : ∀ a b : SearchResult,
    (scoreDesc a b || scoreDesc b a) = true := by
  intro a b
  simp only [scoreDesc, Bool.or_eq_true, decide_eq_true_eq]
  exact le_total b.score a.score

theorem effectiveK_pos (k : Nat) (hk : 1 ≤ k) : effectiveK (some k) = k := by
  have : k ≠ 0 := by omega
  simp [effectiveK, this]

/-! ## Claim C3 -/

/-- Claim C3, amended.  For every query, every `k ≥ 1` and every non-empty
channel set, `retrieve` (with the default `min_score = 0`) runs one
filtered search per channel each capped at `k`, concatenates the hits,
sorts descending by score and truncates to `k`: the result has at most `k`
elements, every returned result comes from some per-channel top-`k` pool,
and the result is sorted by non-increasing score — so no channel starves
another.  (The amendment excludes `k = 0`, which the Python `k = k or
settings.retrieval_k` replaces by the configured default, making the
at-most-`k` bound fail there — see the counterexample.) -/
theorem retrieve_fanout (search : String → Nat → Option String → List SearchResult)
    (q : String) (k : Nat) (channels : List String)
    (hk : 1 ≤ k) (hch : channels ≠ []) :
    (retrieve search q (some k) channels 0).length ≤ k ∧
    (∀ r ∈ retrieve search q (some k) channels 0,
        ∃ c ∈ channels, r ∈ search q k (some c)) ∧
    (retrieve search q (some k) channels 0).Pairwise
      (fun a b => b.score ≤ a.score) := by
  obtain ⟨c0, cs, rfl⟩ : ∃ c0 cs, channels = c0 :: cs := by
    cases channels with
    | nil => exact absurd rfl hch
    | cons c0 cs => exact ⟨c0, cs, rfl⟩
  have hret : retrieve search q (some k) (c0 :: cs) 0 =
      ((((c0 :: cs).map (fun c => search q k (some c))).flatten).mergeSort
        scoreDesc).take k := by
    simp [retrieve, effectiveK_pos k hk]
  rw [hret]
  refine ⟨?_, ?_, ?_⟩
  · rw [List.length_take]
    exact min_le_left _ _
  · intro r hr
    have hr2 : r ∈ ((c0 :: cs).map (fun c => search q k (some c))).flatten :=
      List.mem_mergeSort.mp (List.mem_of_mem_take hr)
    rcases List.mem_flatten.mp hr2 with ⟨l, hl, hrl⟩
    rcases List.mem_map.mp hl with ⟨c, hc, rfl⟩
    exact ⟨c, hc, hrl⟩
  · have hs := List.sorted_mergeSort scoreDesc_trans scoreDesc_total
      (((c0 :: cs).map (fun c => search q k (some c))).flatten)
    have hp := List.Pairwise.sublist (List.take_sublist k _) hs
    exact hp.imp (by intro a b h; simpa [scoreDesc] using h)

def w3DocA : Document :=
  { id := some "a_1", content := "inflation in a",
    metadata := { channel := "a", channel_id := some 1, message_id := some 1,
                  date := none, url := none, views := none } }

def w3DocB : Document :=
  { id := some "b_1", content := "inflation in b",
    metadata := { channel := "b", channel_id := some 2, message_id := some 1,
                  date := none, url := none, views := none } }

def w3ResA : SearchResult := { document := w3DocA, score := 1 }

def w3ResB : SearchResult := { document := w3DocB, score := 0 }

/-- A two-channel index: channel "a" has one hit, channel "b" one hit. -/
def w3Search : String → Nat → Option String → List SearchResult :=
  fun _ n f =>
    if n = 0 then []
    else if f = some "a" then [w3ResA]
    else if f = some "b" then [w3ResB]
    else []

/-- Witness for `retrieve_fanout` at `k = 5`, `channels = ["a", "b"]`. -/
theorem retrieve_fanout_witness :
    (retrieve w3Search "inflation" (some 5) ["a", "b"] 0).length ≤ 5 ∧
    (∀ r ∈ retrieve w3Search "inflation" (some 5) ["a", "b"] 0,
        ∃ c ∈ ["a", "b"], r ∈ w3Search "inflation" 5 (some c)) ∧
    (retrieve w3Search "inflation" (some 5) ["a", "b"] 0).Pairwise
      (fun a b => b.score ≤ a.score) :=
  retrieve_fanout w3Search "inflation" 5 ["a", "b"] (by decide) (by decide)

def cex3Doc : Document :=
  { id := some "a_1", content := "hit",
    metadata := { channel := "a", channel_id := some 1, message_id := some 1,
                  date := none, url := none, views := none } }

def cex3Res : SearchResult := { document := cex3Doc, score := 1 }

/-- A well-behaved top-`n` index search (returns at most `n` hits). -/
def cex3Search : String → Nat → Option String → List SearchResult :=
  fun _ n _ => if n = 0 then [] else [cex3Res]

/-- Counterexample to claim C3 as stated ("for every k"): at `k = 0` the
falsy value is replaced by the configured default (5), so
`retrieve(q, 0, {"a"})` returns one result — more than `k = 0` — even
though the per-channel index search honours its cap. -/
theorem retrieve_fanout_cex :
    ¬ ((retrieve cex3Search "q" (some 0) ["a"] 0).length ≤ 0) := by
  simp [retrieve, effectiveK, retrievalK, cex3Search, List.length_take,
    List.length_mergeSort]

/-! ## Claim C4 -/

/-- Claim C4, amended.  For every query, every `k ≥ 1`, every channel set
and every `minScore`, provided the index search honours its top-`n` cap
and returns scores in the documented `[0, 1]` range (score ≥ 0),
`retrieve` returns at most `k` results and every returned result has score
≥ `minScore` (when `minScore > 0` the floor is enforced by the
post-merge filter; otherwise it holds because scores are non-negative).
(The amendment excludes `k = 0`, which the Python falsy default replaces by
the configured default — see the counterexample.) -/
theorem retrieve_cap_floor (search : String → Nat → Option String → List SearchResult)
    (q : String) (k : Nat) (channels : List String) (minScore : Rat)
    (hk : 1 ≤ k)
    (hlen : ∀ n f, (search q n f).length ≤ n)
    (hpos : ∀ n f, ∀ r ∈ search q n f, 0 ≤ r.score) :
    (retrieve search q (some k) channels minScore).length ≤ k ∧
    ∀ r ∈ retrieve search q (some k) channels minScore, minScore ≤ r.score := by
  have hbaseLen : (match channels with
      | [] => search q k none
      | _ :: _ =>
        (((channels.map (fun c => search q k (some c))).flatten).mergeSort
          scoreDesc).take k).length ≤ k := by
    cases channels with
    | nil => exact hlen k none
    | cons c0 cs =>
      rw [List.length_take]
      exact min_le_left _ _
  have hbasePos : ∀ r ∈ (match channels with
      | [] => search q k none
      | _ :: _ =>
        (((channels.map (fun c => search q k (some c))).flatten).mergeSort
          scoreDesc).take k), 0 ≤ r.score := by
    cases channels with
    | nil => exact hpos k none
    | cons c0 cs =>
      intro r hr
      have hr2 : r ∈ ((c0 :: cs).map (fun c => search q k (some c))).flatten :=
        List.mem_mergeSort.mp (List.mem_of_mem_take hr)
      rcases List.mem_flatten.mp hr2 with ⟨l, hl, hrl⟩
      rcases List.mem_map.mp hl with ⟨c, _, rfl⟩
      exact hpos k (some c) r hrl
  have hret : retrieve search q (some k) channels minScore =
      (if 0 < minScore then
        (match channels with
          | [] => search q k none
          | _ :: _ =>
            (((channels.map (fun c => search q k (some c))).flatten).mergeSort
              scoreDesc).take k).filter (fun r => decide (minScore ≤ r.score))
       else (match channels with
          | [] => search q k none
          | _ :: _ =>
            (((channels.map (fun c => search q k (some c))).flatten).mergeSort
              scoreDesc).take k)) := by
    simp only [retrieve, effectiveK_pos k hk]
  rw [hret]
  by_cases hms : 0 < minScore
  · rw [if_pos hms]
    constructor
    · exact le_trans (List.length_filter_le _ _) hbaseLen
    · intro r hr
      have := (List.mem_filter.mp hr).2
      simpa using this
  · rw [if_neg hms]
    constructor
    · exact hbaseLen
    · intro r hr
      have h0 : (0 : Rat) ≤ r.score := hbasePos r hr
      have : minScore ≤ 0 := le_of_not_lt hms
      exact le_trans this h0

/-- Witness for `retrieve_cap_floor` at a concrete one-hit index. -/
theorem retrieve_cap_floor_witness :
    (∀ n f, (cex3Search "q" n f).length ≤ n) ∧
    (∀ n f, ∀ r ∈ cex3Search "q" n f, 0 ≤ r.score) ∧
    ((retrieve cex3Search "q" (some 2) [] 0).length ≤ 2 ∧
      ∀ r ∈ retrieve cex3Search "q" (some 2) [] 0, (0 : Rat) ≤ r.score) := by
  have hlen : ∀ n f, (cex3Search "q" n f).length ≤ n := by
    intro n f
    cases n with
    | zero => simp [cex3Search]
    | succ m => simp [cex3Search]
  have hpos : ∀ n f, ∀ r ∈ cex3Search "q" n f, 0 ≤ r.score := by
    intro n f r hr
    cases n with
    | zero => simp [cex3Search] at hr
    | succ m =>
      simp [cex3Search] at hr
      rw [hr]
      simp [cex3Res]
  exact ⟨hlen, hpos,
    retrieve_cap_floor cex3Search "q" 2 [] 0 (by decide) hlen hpos⟩

def cex4Doc : Document :=
  { id := some "a_2", content := "hit",
    metadata := { channel := "a", channel_id := some 1, message_id := some 2,
                  date := none, url := none, views := none } }

def cex4Res : SearchResult := { document := cex4Doc, score := 1 }

/-- A well-behaved top-`n` index search (returns at most `n` hits). -/
def cex4Search : String → Nat → Option String → List SearchResult :=
  fun _ n _ => if n = 0 then [] else [cex4Res]

/-- Counterexample to claim C4 as stated ("for every k"): at `k = 0` the
falsy value is replaced by the configured default (5), so
`retrieve(q, 0)` returns one result — more than `k = 0` — even though the
index search honours its cap. -/
theorem retrieve_cap_floor_cex :
    ¬ ((retrieve cex4Search "q" (some 0) [] 0).length ≤ 0) := by
  simp [retrieve, effectiveK, retrievalK, cex4Search]

/-! ## Claim C9 -/

/-- Claim C9, confirmed.  In both `retrieve` and `aretrieve`, the Python
`k = k or settings.retrieval_k` treats `k = 0` as falsy: calling with
`k = 0` is exactly the same computation as omitting `k` (it does not cap
the result at zero; it returns up to the configured default number of
results, as the default-`k` call does). -/
theorem retrieve_k_zero_is_default
    (search : String → Nat → Option String → List SearchResult)
    (q : String) (channels : List String) (minScore : Rat) :
    retrieve search q (some 0) channels minScore
      = retrieve search q none channels minScore ∧
    aretrieve search q (some 0) channels minScore
      = aretrieve search q none channels minScore :=
  ⟨rfl, rfl⟩

/-! ## Claim C5 -/

/-- Claim C5, confirmed.  For every request whose retrieval returns no
results, `complete` returns the fixed no-relevant-information answer with
an empty source list, for EVERY generative model function — i.e. the
generative model is not invoked (the result does not depend on it) — and
this is an ordinary successful return value of the total function
`complete`, not an error. -/
theorem complete_empty_fallback
    (search : String → Nat → Option String → List SearchResult)
    (req : CompletionRequest)
    (h : retrieve search req.question req.top_k req.channels 0 = []) :
    ∀ llm : String → List String → String,
      complete search llm req = { answer := noInfoAnswer, sources := [] } := by
  intro llm
  unfold complete
  rw [h]

/-- An index in which nothing matches. -/
def w5Search : String → Nat → Option String → List SearchResult :=
  fun _ _ _ => []

def w5Req : CompletionRequest :=
  { question := "что случилось вчера?", top_k := some 3, channels := [] }

/-- Witness for `complete_empty_fallback` at a concrete empty index and a
concrete generative model. -/
theorem complete_empty_fallback_witness :
    retrieve w5Search w5Req.question w5Req.top_k w5Req.channels 0 = [] ∧
    complete w5Search (fun _ _ => "some generated text") w5Req
      = { answer := noInfoAnswer, sources := [] } := by
  have h : retrieve w5Search w5Req.question w5Req.top_k w5Req.channels 0 = [] := by
    simp [retrieve, w5Search, w5Req, effectiveK]
  exact ⟨h, complete_empty_fallback w5Search w5Req h (fun _ _ => "some generated text")⟩

/-! ## Claim C8 -/

/-- Claim C8, confirmed.  For every handle whose normalized form (the
username resolved by the channel source) already has a Catalog record,
`addChannel` fails with `AlreadyExists` and the whole store — in
particular the channel records of the Catalog — is returned unchanged: the
duplicate check runs before `create`, so the failed call creates no
second record. -/
theorem add_channel_duplicate (getInfo : String → ChannelInfo)
    (stream : List Document) (st : Store) (link : String) (indexPosts : Bool)
    (h : ∃ c ∈ st.channels, c.username = (getInfo link).username) :
    addChannel getInfo stream st link indexPosts
      = (st, Except.error ServiceError.alreadyExists) := by
  obtain ⟨c, hc⟩ : ∃ c, getByUsername st.channels (getInfo link).username = some c := by
    rcases h with ⟨c, hc, hu⟩
    have hs : (getByUsername st.channels (getInfo link).username).isSome = true := by
      unfold getByUsername
      rw [List.find?_isSome]
      exact ⟨c, hc, by simp [hu]⟩
    exact Option.isSome_iff_exists.mp hs
  unfold addChannel
  simp only [hc]

def w8Channel : Channel :=
  { id := 1, telegram_id := some 100, username := "news_x", title := some "News",
    description := none, link := "https://t.me/news_x", status := .active,
    posts_count := 10, last_post_date := none }

def w8Store : Store := { channels := [w8Channel], nextId := 2, ingest := ⟨[], []⟩ }

def w8Info : ChannelInfo :=
  { telegram_id := some 100, username := "news_x", title := some "News",
    description := none, link := "https://t.me/news_x" }

/-- Witness for `add_channel_duplicate`: a second `addChannel("news_x")`
against a Catalog already holding `news_x` fails with `AlreadyExists` and
leaves the store untouched. -/
theorem add_channel_duplicate_witness :
    (∃ c ∈ w8Store.channels, c.username = ((fun _ => w8Info) "news_x").username) ∧
    addChannel (fun _ => w8Info) [] w8Store "news_x" true
      = (w8Store, Except.error ServiceError.alreadyExists) := by
  have h : ∃ c ∈ w8Store.channels, c.username = ((fun _ => w8Info) "news_x").username := by
    exact ⟨w8Channel, by simp [w8Store], rfl⟩
  exact ⟨h, add_channel_duplicate (fun _ => w8Info) [] w8Store "news_x" true h⟩

/-! ## Claim C10 -/

/-- Claim C10, confirmed.  In the local filtering of `summarize`, the
allow-list check `if doc_channel and doc_channel not in channels` never
drops a document whose channel metadata is empty: for every channel
allow-list (empty or not), a result with empty channel name that passes
the period check is in the filtered set (and hence counted), and a result
can only be dropped for being out of period or for carrying a NON-empty
channel name absent from a non-empty allow-list. -/
theorem filter_missing_channel_kept (results : List SearchResult)
    (s e : Datetime) (chs : List String) :
    (∀ r ∈ results, r.document.metadata.channel = "" → periodOk s e r = true →
        r ∈ filterByPeriod results s e chs) ∧
    (∀ r ∈ results, r ∉ filterByPeriod results s e chs →
        periodOk s e r = false ∨
        (r.document.metadata.channel ≠ "" ∧ chs ≠ [] ∧
          r.document.metadata.channel ∉ chs)) := by
  constructor
  · intro r hr hch hp
    apply List.mem_filter.mpr
    refine ⟨hr, ?_⟩
    rw [Bool.and_eq_true]
    refine ⟨hp, ?_⟩
    unfold channelOk
    cases chs with
    | nil => rfl
    | cons c cs => simp [hch]
  · intro r hr hnot
    by_cases hp : periodOk s e r = true
    · right
      have hco : channelOk chs r = false := by
        by_cases hc : channelOk chs r = true
        · exact absurd
            (List.mem_filter.mpr ⟨hr, by rw [Bool.and_eq_true]; exact ⟨hp, hc⟩⟩) hnot
        · simpa using hc
      unfold channelOk at hco
      cases chs with
      | nil => cases hco
      | cons c cs =>
        by_cases hch : r.document.metadata.channel = ""
        · rw [if_pos hch] at hco
          cases hco
        · rw [if_neg hch] at hco
          refine ⟨hch, by simp, ?_⟩
          intro hmem
          rw [decide_eq_true hmem] at hco
          cases hco
    · exact Or.inl (by simpa using hp)

def w10Doc : Document :=
  { id := some "x_1", content := "post with missing channel metadata",
    metadata := { channel := "", channel_id := none, message_id := some 1,
                  date := none, url := none, views := none } }

def w10Res : SearchResult := { document := w10Doc, score := 1 }

/-- Witness for `filter_missing_channel_kept`: a result with empty channel
metadata survives the non-empty allow-list `["a"]`. -/
theorem filter_missing_channel_kept_witness :
    w10Res ∈ [w10Res] ∧ w10Res.document.metadata.channel = "" ∧
    periodOk ⟨0, none⟩ ⟨10, none⟩ w10Res = true ∧
    w10Res ∈ filterByPeriod [w10Res] ⟨0, none⟩ ⟨10, none⟩ ["a"] :=
  ⟨List.mem_singleton.mpr rfl, rfl, rfl,
    (filter_missing_channel_kept [w10Res] ⟨0, none⟩ ⟨10, none⟩ ["a"]).1
      w10Res (List.mem_singleton.mpr rfl) rfl rfl⟩

/-! ## Claim C6 -/

theorem stripTz_wall (d : Datetime) : (stripTz d).wall = d.wall := by
  unfold stripTz
  cases h : d.tz <;> simp

/-- Claim C6, amended.  The local period filter of `summarize` compares on
wall-clock values after normalizing both sides to naive
(`replace(tzinfo=None)`), and with respect to that normalization it is
correct for every DATED document: every result in the filtered set whose
timestamp is present lies in the closed interval `[start, end]`, and every
retrieved result whose timestamp lies outside either bound (even by one
second) is excluded.  (The amendment restricts the first clause to
documents that carry a timestamp: the code skips the period check entirely
for a document with no date, which is therefore reported regardless of the
period — see the counterexample.) -/
theorem period_filter_correct (results : List SearchResult) (s e : Datetime)
    (chs : List String) :
    (∀ r ∈ filterByPeriod results s e chs, ∀ d, r.document.metadata.date = some d →
        s.wall ≤ d.wall ∧ d.wall ≤ e.wall) ∧
    (∀ r ∈ results, ∀ d, r.document.metadata.date = some d →
        (d.wall < s.wall ∨ e.wall < d.wall) →
        r ∉ filterByPeriod results s e chs) := by
  have hkey : ∀ r d, r.document.metadata.date = some d →
      (periodOk s e r = true ↔ (s.wall ≤ d.wall ∧ d.wall ≤ e.wall)) := by
    intro r d hd
    unfold periodOk
    rw [hd]
    simp [stripTz_wall]
  constructor
  · intro r hr d hd
    have hp : periodOk s e r = true := by
      have := (List.mem_filter.mp hr).2
      rw [Bool.and_eq_true] at this
      exact this.1
    exact (hkey r d hd).mp hp
  · intro r _ d hd hout hmem
    have hp : periodOk s e r = true := by
      have := (List.mem_filter.mp hmem).2
      rw [Bool.and_eq_true] at this
      exact this.1
    rcases (hkey r d hd).mp hp with ⟨h1, h2⟩
    rcases hout with h | h
    · exact absurd h1 (not_le.mpr h)
    · exact absurd h2 (not_le.mpr h)

def w6Doc : Document :=
  { id := some "x_2", content := "post just outside the period",
    metadata := { channel := "news_x", channel_id := some 1, message_id := some 2,
                  date := some ⟨20, none⟩, url := none, views := none } }

def w6Res : SearchResult := { document := w6Doc, score := 1 }

/-- Witness for `period_filter_correct`: a retrieved document dated 20 is
excluded from the filter for the period `[0, 10]`. -/
theorem period_filter_correct_witness :
    w6Res ∈ [w6Res] ∧ w6Res.document.metadata.date = some ⟨20, none⟩ ∧
    ((20 : Int) < 0 ∨ (10 : Int) < 20) ∧
    w6Res ∉ filterByPeriod [w6Res] ⟨0, none⟩ ⟨10, none⟩ [] :=
  ⟨List.mem_singleton.mpr rfl, rfl, Or.inr (by decide),
    (period_filter_correct [w6Res] ⟨0, none⟩ ⟨10, none⟩ []).2
      w6Res (List.mem_singleton.mpr rfl) ⟨20, none⟩ rfl (Or.inr (by decide))⟩

def cex6Doc : Document :=
  { id := some "x_3", content := "a dateless post",
    metadata := { channel := "news_x", channel_id := some 1, message_id := some 3,
                  date := none, url := none, views := none } }

def cex6Res : SearchResult := { document := cex6Doc, score := 1 }

/-- Counterexample to claim C6 as stated: a retrieved document carrying NO
timestamp passes the period filter for every period — here the degenerate
period `[0, 0]` — so `summarize` reports a document whose timestamp does
not fall in the closed interval `[start, end]` (it has none at all). -/
theorem period_filter_cex :
    cex6Res ∈ filterByPeriod [cex6Res] ⟨0, none⟩ ⟨0, none⟩ [] ∧
    ¬ (∀ r ∈ filterByPeriod [cex6Res] ⟨0, none⟩ ⟨0, none⟩ [],
        ∃ d, r.document.metadata.date = some d ∧
          (0 : Int) ≤ d.wall ∧ d.wall ≤ 0) := by
  constructor
  · decide
  · intro h
    rcases h cex6Res (by decide) with ⟨d, hd, _⟩
    have hn : cex6Res.document.metadata.date = none := rfl
    rw [hn] at hd
    cases hd

/-! ## Claim C7 -/

theorem newsPartsAux_length_le (maxChars : Nat) :
    ∀ (results : List SearchResult) (total : Nat),
      (newsPartsAux maxChars results total).length ≤ results.length := by
  intro results
  induction results with
  | nil =>
    intro total
    simp [newsPartsAux]
  | cons r rest ih =>
    intro total
    by_cases h : maxChars < total + (newsPart r).length
    · simp only [newsPartsAux]
      rw [if_pos h]
      simp
    · simp only [newsPartsAux]
      rw [if_neg h]
      simpa using Nat.succ_le_succ (ih _)

/-- Claim C7, amended.  For every non-empty filtered result set,
`posts_processed` equals the TOTAL count of filtered documents
(`len(filtered_results)`), while the digest prompt is built from the
greedy in-retrieval-order subset fitting the fixed character budget, whose
count never exceeds (and can be strictly below) `posts_processed`.  (The
amendment replaces the claimed equality between `posts_processed` and the
count of documents actually used in the prompt: when a filtered document
does not fit the budget, the code still counts it — see the
counterexample.) -/
theorem summary_posts_processed
    (search : String → Nat → Option String → List SearchResult)
    (llm : String → String) (req : SummaryRequest)
    (hne : filterByPeriod
        (search ("новости события " ++ formatPeriod req.start_date req.end_date) 50 none)
        req.start_date req.end_date req.channels ≠ []) :
    (generateSummary search llm req).posts_processed
      = (filterByPeriod
          (search ("новости события " ++ formatPeriod req.start_date req.end_date) 50 none)
          req.start_date req.end_date req.channels).length ∧
    (newsPartsAux maxNewsChars
        (filterByPeriod
          (search ("новости события " ++ formatPeriod req.start_date req.end_date) 50 none)
          req.start_date req.end_date req.channels) 0).length
      ≤ (filterByPeriod
          (search ("новости события " ++ formatPeriod req.start_date req.end_date) 50 none)
          req.start_date req.end_date req.channels).length := by
  set f := filterByPeriod
    (search ("новости события " ++ formatPeriod req.start_date req.end_date) 50 none)
    req.start_date req.end_date req.channels with hfdef
  have hemp : f.isEmpty = false := by
    cases hfe : f with
    | nil => exact absurd hfe hne
    | cons x xs => rfl
  constructor
  · simp only [generateSummary]
    rw [← hfdef, hemp]
    simp
  · exact newsPartsAux_length_le maxNewsChars f 0

def w7Doc : Document :=
  { id := some "c_1", content := "hi",
    metadata := { channel := "c", channel_id := some 1, message_id := some 1,
                  date := none, url := none, views := none } }

def w7Res : SearchResult := { document := w7Doc, score := 1 }

def w7Search : String → Nat → Option String → List SearchResult :=
  fun _ _ _ => [w7Res]

def w7Req : SummaryRequest :=
  { start_date := ⟨0, none⟩, end_date := ⟨0, none⟩, channels := [] }

/-- Witness for `summary_posts_processed` at a one-short-document index:
the filtered set is non-empty and the count bound holds. -/
theorem summary_posts_processed_witness :
    filterByPeriod
        (w7Search ("новости события " ++ formatPeriod w7Req.start_date w7Req.end_date) 50 none)
        w7Req.start_date w7Req.end_date w7Req.channels ≠ [] ∧
    (generateSummary w7Search (fun _ => "digest") w7Req).posts_processed
      = (filterByPeriod
          (w7Search ("новости события " ++ formatPeriod w7Req.start_date w7Req.end_date) 50 none)
          w7Req.start_date w7Req.end_date w7Req.channels).length := by
  have hne : filterByPeriod
      (w7Search ("новости события " ++ formatPeriod w7Req.start_date w7Req.end_date) 50 none)
      w7Req.start_date w7Req.end_date w7Req.channels ≠ [] := by
    intro h
    exact List.cons_ne_nil _ _ h
  exact ⟨hne, (summary_posts_processed w7Search (fun _ => "digest") w7Req hne).1⟩

def a64 : String := "aaaaaaaaaaaaaaaaaaaaaaaaaaaaaaaaaaaaaaaaaaaaaaaaaaaaaaaaaaaaaaaa"

def b1 : String := a64 ++ a64

def b2 : String := b1 ++ b1

def b3 : String := b2 ++ b2

def b4 : String := b3 ++ b3

def b5 : String := b4 ++ b4

def b6 : String := b5 ++ b5

/-- A 6144-character post body: long enough that two such posts cannot
both fit the 10000-character prompt budget. -/
def bigContent : String := b6 ++ b5

theorem bigContent_length : bigContent.length = 6144 := by
  simp only [bigContent, b6, b5, b4, b3, b2, b1, String.length_append]
  rfl

def cex7Doc1 : Document :=
  { id := some "a_1", content := bigContent,
    metadata := { channel := "a", channel_id := some 1, message_id := some 1,
                  date := none, url := none, views := none } }

def cex7Doc2 : Document :=
  { id := some "a_2", content := bigContent,
    metadata := { channel := "a", channel_id := some 1, message_id := some 2,
                  date := none, url := none, views := none } }

def cex7Res1 : SearchResult := { document := cex7Doc1, score := 1 }

def cex7Res2 : SearchResult := { document := cex7Doc2, score := 1 }

def cex7Search : String → Nat → Option String → List SearchResult :=
  fun _ _ _ => [cex7Res1, cex7Res2]

def cex7Req : SummaryRequest :=
  { start_date := ⟨0, none⟩, end_date := ⟨0, none⟩, channels := [] }

theorem cex7_part1_length : (newsPart cex7Res1).length = 6154 := by
  have hpart : newsPart cex7Res1
      = "[" ++ "a" ++ ", " ++ "N/A" ++ "]\n" ++ bigContent ++ "\n" := rfl
  rw [hpart]
  simp only [String.length_append, bigContent_length]
  rfl

theorem cex7_part2_length : (newsPart cex7Res2).length = 6154 := by
  have hpart : newsPart cex7Res2
      = "[" ++ "a" ++ ", " ++ "N/A" ++ "]\n" ++ bigContent ++ "\n" := rfl
  rw [hpart]
  simp only [String.length_append, bigContent_length]
  rfl

/-- Counterexample to claim C7 as stated: two filtered documents of 6144
characters each cannot both fit the 10000-character budget, so the digest
prompt is built from only ONE document, yet `posts_processed` reports 2 —
it equals the filtered count, not the count of documents actually used to
build the prompt. -/
theorem summary_posts_processed_cex :
    (generateSummary cex7Search (fun _ => "digest") cex7Req).posts_processed = 2 ∧
    filterByPeriod
        (cex7Search ("новости события " ++ formatPeriod cex7Req.start_date cex7Req.end_date)
          50 none)
        cex7Req.start_date cex7Req.end_date cex7Req.channels = [cex7Res1, cex7Res2] ∧
    (newsPartsAux maxNewsChars [cex7Res1, cex7Res2] 0).length = 1 := by
  refine ⟨rfl, rfl, ?_⟩
  simp only [newsPartsAux, maxNewsChars, cex7_part1_length, cex7_part2_length]
  norm_num

end NewsHound
